import Mathlib

/-!
# serde-stuff: a shallow embedding of the (de)serialization adapters

This file embeds the adapter modules of the `serde-stuff` crate
(`vec_or_one`, `option_vec_or_one`, `base64`, `option_base64`,
`string_or_struct`) over a JSON-like document model, together with the
parts of the host serialization framework the adapters rely on
(untagged-enum dispatch, the `none` signal, field skipping, and
`deserialize_any` dispatch), and proves the specified properties.

Conventions:
* a wire value node is `Json`;
* decode errors are `Except String` (the error is the message text);
* an `Element` codec is a pair of functions `enc : T → Json` and
  `dec : Json → Except String T`.
-/

/-- The host document model: an already-parsed value node
(scalar, array, or map), as in `serde_json::Value`. -/
inductive Json where
  | null : Json
  | bool : Bool → Json
  | num : Int → Json
  | str : String → Json
  | arr : List Json → Json
  | obj : List (String × Json) → Json

/-- Shape probe: is the node array-shaped? -/
def Json.isArr : Json → Bool
  | Json.arr _ => true
  | _ => false

/-- Shape probe: is the node text-shaped? -/
def Json.isStr : Json → Bool
  | Json.str _ => true
  | _ => false

/-- Shape probe: is the node map-shaped? -/
def Json.isObj : Json → Bool
  | Json.obj _ => true
  | _ => false

/-- Whether a serialized object node contains a field with the given key. -/
def hasKey (j : Json) (k : String) : Bool :=
  match j with
  | Json.obj fs => fs.any (fun p => p.1 == k)
  | _ => false

namespace vec_or_one

/-- The element-by-element sequence decode loop of the framework
(`SeqAccess`): elements are decoded in array order and the first
failure aborts with that element's error. -/
def decodeElems {T : Type} (dec : Json → Except String T) :
    List Json → Except String (List T)
  | [] => Except.ok []
  | x :: xs =>
    match dec x with
    | Except.ok t =>
      match decodeElems dec xs with
      | Except.ok ts => Except.ok (t :: ts)
      | Except.error e => Except.error e
    | Except.error e => Except.error e

/-- Decoding a node under the `Vec<T>` interpretation: the node must be
array-shaped and every element must decode. -/
def decodeSeq {T : Type} (dec : Json → Except String T) (j : Json) :
    Except String (List T) :=
  match j with
  | Json.arr xs => decodeElems dec xs
  | _ => Except.error "invalid type: expected a sequence"

/-- `vec_or_one::deserialize`: the `#[serde(untagged)]` enum
`VecOrOne { Vec(Vec<T>), One(T) }` tries the `Vec` variant first, then
the `One` variant; when both fail, serde reports its fixed
untagged-enum message. -/
def deserialize {T : Type} (dec : Json → Except String T) (j : Json) :
    Except String (List T) :=
  match decodeSeq dec j with
  | Except.ok v => Except.ok v
  | Except.error _ =>
    match dec j with
    | Except.ok i => Except.ok [i]
    | Except.error _ =>
      Except.error "data did not match any variant of untagged enum VecOrOne"

/-- `vec_or_one::serialize`: a sequence of length exactly 1 is encoded
as its sole element's own encoding; any other length is encoded as the
array of the elements' encodings, in order. -/
def serialize {T : Type} (enc : T → Json) (v : List T) : Json :=
  match v with
  | [x] => enc x
  | _ => Json.arr (v.map enc)

end vec_or_one

namespace option_vec_or_one

/-- `option_vec_or_one::deserialize` on a present node: the framework's
`deserialize_option` routes an explicit null to `visit_none` (giving
`None`) and any other node to `visit_some`, which delegates to
`vec_or_one::deserialize` and wraps the result in `Some`. -/
def deserialize {T : Type} (dec : Json → Except String T) (j : Json) :
    Except String (Option (List T)) :=
  match j with
  | Json.null => Except.ok none
  | _ =>
    match vec_or_one.deserialize dec j with
    | Except.ok v => Except.ok (some v)
    | Except.error e => Except.error e

/-- Field-level decoding with `#[serde(default)]`: a field absent from
the input is defaulted to `None` without invoking the adapter; a
present field is decoded by `option_vec_or_one::deserialize`. -/
def deserializeField {T : Type} (dec : Json → Except String T)
    (field : Option Json) : Except String (Option (List T)) :=
  match field with
  | none => Except.ok none
  | some j => deserialize dec j

/-- `option_vec_or_one::serialize`: `Some(v)` repeats the
`vec_or_one::serialize` match on the length; `None` calls
`serialize_none`, which the JSON framework renders as a null node. -/
def serialize {T : Type} (enc : T → Json) (ov : Option (List T)) : Json :=
  match ov with
  | some v =>
    match v with
    | [x] => enc x
    | _ => Json.arr (v.map enc)
  | none => Json.null

end option_vec_or_one

namespace b64

/-- Modelled from the spec: the external base64 library's URL-safe
alphabet (`A-Z`, `a-z`, `0-9`, `-`, `_`), delegated by the spec to a
standard base64 implementation (RFC 4648 §5). -/
def alphabet : List Char :=
  "ABCDEFGHIJKLMNOPQRSTUVWXYZabcdefghijklmnopqrstuvwxyz0123456789-_".data

/-- Symbol for a 6-bit value. -/
def b64char (n : Nat) : Char := alphabet.getD n 'A'

/-- 6-bit value of a symbol, `none` for characters outside the
URL-safe alphabet (including the pad `=`). -/
def b64val (c : Char) : Option Nat := alphabet.findIdx? (fun a => a == c)

/-- Modelled from the spec: padded URL-safe base64 encoding of a byte
sequence (bytes are `Nat` values below 256), three bytes per four
output symbols, with `=` padding closing a final 1- or 2-byte group. -/
def encodeChunks : List Nat → List Char
  | [] => []
  | [a] => [b64char (a / 4), b64char (a % 4 * 16), '=', '=']
  | [a, b] =>
    [b64char (a / 4), b64char (a % 4 * 16 + b / 16), b64char (b % 16 * 4), '=']
  | a :: b :: c :: rest =>
    b64char (a / 4) :: b64char (a % 4 * 16 + b / 16) ::
      b64char (b % 16 * 4 + c / 64) :: b64char (c % 64) :: encodeChunks rest

/-- Modelled from the spec: canonical padded URL-safe base64 decoding.
The input is consumed four symbols at a time; a symbol outside the
alphabet, a misplaced pad, a length not a multiple of four, or
non-zero discarded trailing bits is a decode error, as in the base64
library the adapters delegate to. -/
def decodeChunks : List Char → Except String (List Nat)
  | [] => Except.ok []
  | c1 :: c2 :: c3 :: c4 :: rest =>
    match b64val c1, b64val c2 with
    | some v1, some v2 =>
      if c3 = '=' then
        if c4 = '=' then
          if rest = [] then
            if v2 % 16 = 0 then Except.ok [v1 * 4 + v2 / 16]
            else Except.error "Invalid last symbol"
          else Except.error "Invalid byte"
        else Except.error "Invalid byte"
      else
        match b64val c3 with
        | some v3 =>
          if c4 = '=' then
            if rest = [] then
              if v3 % 4 = 0 then
                Except.ok [v1 * 4 + v2 / 16, v2 % 16 * 16 + v3 / 4]
              else Except.error "Invalid last symbol"
            else Except.error "Invalid byte"
          else
            match b64val c4 with
            | some v4 =>
              match decodeChunks rest with
              | Except.ok tail =>
                Except.ok ((v1 * 4 + v2 / 16) :: (v2 % 16 * 16 + v3 / 4) ::
                  (v3 % 4 * 64 + v4) :: tail)
              | Except.error e => Except.error e
            | none => Except.error "Invalid byte"
        | none => Except.error "Invalid byte"
    | _, _ => Except.error "Invalid byte"
  | _ => Except.error "Invalid length"

/-- URL-safe padded base64 encoding, as text. -/
def encode (v : List Nat) : String := String.mk (encodeChunks v)

/-- URL-safe padded base64 decoding of text. -/
def decode (s : String) : Except String (List Nat) := decodeChunks s.data

/-- A character the decoder may accept: an alphabet symbol or the pad. -/
def validB64Char (c : Char) : Bool := (b64val c).isSome || c == '='

end b64

namespace base64

/-- `base64::serialize`: encode the bytes with the URL-safe config and
serialize the resulting text as a string node. -/
def serialize (v : List Nat) : Json := Json.str (b64.encode v)

/-- `base64::deserialize`: deserialize a string node, then decode it as
URL-safe base64; a non-string node or a base64 decode failure is a
decode error. -/
def deserialize (j : Json) : Except String (List Nat) :=
  match j with
  | Json.str s =>
    match b64.decode s with
    | Except.ok v => Except.ok v
    | Except.error e => Except.error e
  | _ => Except.error "invalid type: expected a string"

end base64

namespace option_base64

/-- `option_base64::serialize`: encode `Some(bytes)` as the base64 text
node; `None` is serialized as the `Option` none signal, which the JSON
framework renders as a null node. -/
def serialize (v : Option (List Nat)) : Json :=
  match v with
  | some bytes => Json.str (b64.encode bytes)
  | none => Json.null

/-- `option_base64::deserialize`: an explicit null gives `None`; a
string node is base64-decoded and wrapped in `Some`; anything else is a
decode error from the `Option<String>` layer. -/
def deserialize (j : Json) : Except String (Option (List Nat)) :=
  match j with
  | Json.null => Except.ok none
  | Json.str s =>
    match b64.decode s with
    | Except.ok v => Except.ok (some v)
    | Except.error e => Except.error e
  | _ => Except.error "invalid type: expected a string"

end option_base64

/-- The error type of the `FromStr` implementations the
`string_or_struct` adapter accepts: `void::Void`, an uninhabited type. -/
abbrev Void : Type := Empty

/-- `Result::unwrap` on a result whose error type is `Void`: the error
arm is unreachable. -/
def unwrapVoid {T : Type} : Except Void T → T
  | Except.ok t => t
  | Except.error e => nomatch e

namespace string_or_struct

/-- `StringOrStruct::visit_str`: the text branch of the visitor,
`Ok(FromStr::from_str(value).unwrap())`. -/
def visit_str {T : Type} (from_str : String → Except Void T) (s : String) :
    Except String T :=
  Except.ok (unwrapVoid (from_str s))

/-- `string_or_struct::deserialize`: `deserialize_any` routes a text
node to `visit_str` (the `FromStr` conversion), a map node to
`visit_map` (the structural decode `decMap`), and reports the
visitor's `expecting` message for every other shape. -/
def deserialize {T : Type} (from_str : String → Except Void T)
    (decMap : List (String × Json) → Except String T) (j : Json) :
    Except String T :=
  match j with
  | Json.str s => visit_str from_str s
  | Json.obj m => decMap m
  | _ => Except.error "invalid type: expected string or map"

end string_or_struct

theorem decodeElems_nil {T : Type} (dec : Json → Except String T) :
    vec_or_one.decodeElems dec [] = Except.ok [] := rfl

/-- Mapping an encoder and then decoding elementwise is the identity,
given that the element codec round-trips. -/
theorem decodeElems_map {T : Type} (enc : T → Json)
    (dec : Json → Except String T) (hrt : ∀ t, dec (enc t) = Except.ok t) :
    ∀ l : List T, vec_or_one.decodeElems dec (l.map enc) = Except.ok l := by
  intro l
  induction l with
  | nil => rfl
  | cons x xs ih =>
    simp only [List.map_cons, vec_or_one.decodeElems, hrt x, ih]

/-- A successful elementwise decode has the array's length and decodes
the i-th array entry to the i-th result entry. -/
theorem decodeElems_spec {T : Type} (dec : Json → Except String T) :
    ∀ (xs : List Json) (v : List T),
      vec_or_one.decodeElems dec xs = Except.ok v →
      v.length = xs.length ∧
        ∀ (i : Nat) (h1 : i < xs.length) (h2 : i < v.length),
          dec (xs.get ⟨i, h1⟩) = Except.ok (v.get ⟨i, h2⟩) := by
  intro xs
  induction xs with
  | nil =>
    intro v hv
    simp only [vec_or_one.decodeElems] at hv
    cases hv
    exact ⟨rfl, fun i h1 _ => absurd h1 (by simp)⟩
  | cons x xs ih =>
    intro v hv
    simp only [vec_or_one.decodeElems] at hv
    cases hx : dec x with
    | error e => rw [hx] at hv; cases hv
    | ok t =>
      rw [hx] at hv
      cases hxs : vec_or_one.decodeElems dec xs with
      | error e => rw [hxs] at hv; cases hv
      | ok ts =>
        rw [hxs] at hv
        cases hv
        obtain ⟨hlen, hord⟩ := ih ts hxs
        refine ⟨by simp [hlen], ?_⟩
        intro i h1 h2
        cases i with
        | zero => simpa using hx
        | succ n =>
          simp only [List.get_cons_succ]
          exact hord n (by simpa using h1) (by simpa using h2)

theorem b64val_b64char : ∀ n, n < 64 → b64.b64val (b64.b64char n) = some n := by decide

theorem b64char_ne_pad : ∀ n, n < 64 → ¬ (b64.b64char n = '=') := by decide

theorem decodeChunks_encodeChunks :
    ∀ (bs : List Nat), (∀ b ∈ bs, b < 256) →
      b64.decodeChunks (b64.encodeChunks bs) = Except.ok bs
  | [], _ => rfl
  | [a], h => by
    have ha : a < 256 := h a (by simp)
    show b64.decodeChunks
      [b64.b64char (a / 4), b64.b64char (a % 4 * 16), '=', '='] = Except.ok [a]
    simp only [b64.decodeChunks]
    rw [b64val_b64char (a / 4) (by omega), b64val_b64char (a % 4 * 16) (by omega)]
    have h1 : a % 4 * 16 % 16 = 0 := by omega
    simp [h1]
    omega
  | [a, b], h => by
    have ha : a < 256 := h a (by simp)
    have hb : b < 256 := h b (by simp)
    show b64.decodeChunks
      [b64.b64char (a / 4), b64.b64char (a % 4 * 16 + b / 16),
       b64.b64char (b % 16 * 4), '='] = Except.ok [a, b]
    simp only [b64.decodeChunks]
    rw [b64val_b64char (a / 4) (by omega),
        b64val_b64char (a % 4 * 16 + b / 16) (by omega)]
    have hc3 : ¬ (b64.b64char (b % 16 * 4) = '=') := b64char_ne_pad _ (by omega)
    rw [b64val_b64char (b % 16 * 4) (by omega)]
    have h1 : b % 16 * 4 % 4 = 0 := by omega
    simp [hc3, h1]
    omega
  | a :: b :: c :: rest, h => by
    have ha : a < 256 := h a (by simp)
    have hb : b < 256 := h b (by simp)
    have hc : c < 256 := h c (by simp)
    have ih : b64.decodeChunks (b64.encodeChunks rest) = Except.ok rest :=
      decodeChunks_encodeChunks rest (fun x hx => h x (by simp [hx]))
    show b64.decodeChunks
      (b64.b64char (a / 4) :: b64.b64char (a % 4 * 16 + b / 16) ::
       b64.b64char (b % 16 * 4 + c / 64) :: b64.b64char (c % 64) ::
       b64.encodeChunks rest) = Except.ok (a :: b :: c :: rest)
    simp only [b64.decodeChunks]
    rw [b64val_b64char (a / 4) (by omega),
        b64val_b64char (a % 4 * 16 + b / 16) (by omega),
        b64val_b64char (b % 16 * 4 + c / 64) (by omega),
        b64val_b64char (c % 64) (by omega)]
    have hc3 : ¬ (b64.b64char (b % 16 * 4 + c / 64) = '=') :=
      b64char_ne_pad _ (by omega)
    have hc4 : ¬ (b64.b64char (c % 64) = '=') := b64char_ne_pad _ (by omega)
    simp [hc3, hc4, ih]
    omega

theorem decodeChunks_ok_wf :
    ∀ (cs : List Char) (bs : List Nat), b64.decodeChunks cs = Except.ok bs →
      cs.length % 4 = 0 ∧ ∀ c ∈ cs, b64.validB64Char c = true
  | [], _, _ => ⟨rfl, by simp⟩
  | [c1], _, h => by simp [b64.decodeChunks] at h
  | [c1, c2], _, h => by simp [b64.decodeChunks] at h
  | [c1, c2, c3], _, h => by simp [b64.decodeChunks] at h
  | c1 :: c2 :: c3 :: c4 :: rest, bs, h => by
    simp only [b64.decodeChunks] at h
    split at h
    case h_2 => simp at h
    rename_i v1 v2 hv1 hv2
    split at h
    case isTrue =>
      rename_i hc3
      split at h
      case isFalse => simp at h
      rename_i hc4
      split at h
      case isFalse => simp at h
      rename_i hrest
      subst hc3
      subst hc4
      subst hrest
      refine ⟨by simp, ?_⟩
      intro c hc
      simp only [List.mem_cons] at hc
      rcases hc with rfl | rfl | rfl | rfl | hc
      · simp [b64.validB64Char, hv1]
      · simp [b64.validB64Char, hv2]
      · decide
      · decide
      · exact absurd hc (List.not_mem_nil c)
    case isFalse =>
      rename_i hc3
      split at h
      case h_2 => simp at h
      rename_i v3 hv3
      split at h
      case isTrue =>
        rename_i hc4
        split at h
        case isFalse => simp at h
        rename_i hrest
        subst hc4
        subst hrest
        refine ⟨by simp, ?_⟩
        intro c hc
        simp only [List.mem_cons] at hc
        rcases hc with rfl | rfl | rfl | rfl | hc
        · simp [b64.validB64Char, hv1]
        · simp [b64.validB64Char, hv2]
        · simp [b64.validB64Char, hv3]
        · decide
        · exact absurd hc (List.not_mem_nil c)
      case isFalse =>
        rename_i hc4
        split at h
        case h_2 => simp at h
        rename_i v4 hv4
        split at h
        case h_2 => simp at h
        rename_i tail htail
        obtain ⟨hlen, hval⟩ := decodeChunks_ok_wf rest tail htail
        refine ⟨?_, ?_⟩
        · simp only [List.length_cons]
          omega
        · intro c hc
          simp only [List.mem_cons] at hc
          rcases hc with rfl | rfl | rfl | rfl | hc
          · simp [b64.validB64Char, hv1]
          · simp [b64.validB64Char, hv2]
          · simp [b64.validB64Char, hv3]
          · simp [b64.validB64Char, hv4]
          · exact hval c hc

/-- A concrete Element codec instantiating the generic adapters in
witnesses: values are strings, encoded as text nodes. -/
def encStr : String → Json := Json.str

/-- Decode half of the concrete string Element codec. -/
def decStr (j : Json) : Except String String :=
  match j with
  | Json.str s => Except.ok s
  | _ => Except.error "invalid type: expected a string"

/-- A node that is not array-shaped never matches the sequence
interpretation. -/
theorem decodeSeq_not_arr {T : Type} (dec : Json → Except String T)
    (j : Json) (h : j.isArr = false) :
    vec_or_one.decodeSeq dec j =
      Except.error "invalid type: expected a sequence" := by
  cases j <;> simp_all [vec_or_one.decodeSeq, Json.isArr]

/-- C1: round-trip through the scalar-or-collection codec.  For an
element codec that round-trips and whose encodings are not themselves
array-shaped, deserializing the serialization of a singleton `[e]`
yields `[e]`, and for any sequence of length at least 2 the
serialization is array-shaped and deserializes back to exactly the
same sequence, in the same order. -/
theorem vec_or_one_round_trip {T : Type} (enc : T → Json)
    (dec : Json → Except String T)
    (hrt : ∀ t, dec (enc t) = Except.ok t)
    (hshape : ∀ t, (enc t).isArr = false) :
    (∀ e : T,
      vec_or_one.deserialize dec (vec_or_one.serialize enc [e]) =
        Except.ok [e]) ∧
    (∀ s : List T, 2 ≤ s.length →
      vec_or_one.deserialize dec (vec_or_one.serialize enc s) =
          Except.ok s ∧
        (vec_or_one.serialize enc s).isArr = true) := by
  constructor
  · intro e
    show vec_or_one.deserialize dec (enc e) = Except.ok [e]
    simp [vec_or_one.deserialize, decodeSeq_not_arr dec (enc e) (hshape e),
      hrt e]
  · intro s hs
    match s, hs with
    | a :: b :: t, _ =>
      show vec_or_one.deserialize dec (Json.arr ((a :: b :: t).map enc)) =
          Except.ok (a :: b :: t) ∧ (Json.arr ((a :: b :: t).map enc)).isArr = true
      refine ⟨?_, rfl⟩
      have hd := decodeElems_map enc dec hrt (a :: b :: t)
      simp only [List.map_cons] at hd
      simp [vec_or_one.deserialize, vec_or_one.decodeSeq, hd]

/-- C1 witness: the round-trip theorem instantiated at the concrete
string codec, for the singleton `["x"]` and the pair `["x", "y"]`. -/
theorem vec_or_one_round_trip_witness :
    vec_or_one.deserialize decStr (vec_or_one.serialize encStr ["x"]) =
        Except.ok ["x"] ∧
      vec_or_one.deserialize decStr
          (vec_or_one.serialize encStr ["x", "y"]) =
        Except.ok ["x", "y"] :=
  ⟨(vec_or_one_round_trip encStr decStr (fun t => rfl) (fun t => rfl)).1 "x",
   ((vec_or_one_round_trip encStr decStr (fun t => rfl) (fun t => rfl)).2
     ["x", "y"] (by simp)).1⟩

/-- C2: collapse law for `vec_or_one::serialize`.  A sequence of length
exactly 1 is encoded directly as its sole element's own encoding (so
it is scalar-shaped, never a 1-element array, whenever the element's
own encoding is); any other length (0 or at least 2) is encoded as the
array node of the elements' encodings, in order. -/
theorem vec_or_one_collapse {T : Type} (enc : T → Json) :
    (∀ e : T, vec_or_one.serialize enc [e] = enc e) ∧
    (∀ e : T, (enc e).isArr = false →
      (vec_or_one.serialize enc [e]).isArr = false) ∧
    (∀ v : List T, v.length ≠ 1 →
      vec_or_one.serialize enc v = Json.arr (v.map enc)) := by
  refine ⟨fun e => rfl, fun e h => h, ?_⟩
  intro v hv
  match v with
  | [] => rfl
  | [x] => exact absurd rfl hv
  | a :: b :: t => rfl

/-- C2 witness: the collapse law instantiated at the concrete string
codec, at a singleton (scalar output), the empty sequence, and a
2-element sequence (array outputs). -/
theorem vec_or_one_collapse_witness :
    vec_or_one.serialize encStr ["x"] = Json.str "x" ∧
      (vec_or_one.serialize encStr ["x"]).isArr = false ∧
      vec_or_one.serialize encStr [] = Json.arr [] ∧
      vec_or_one.serialize encStr ["x", "y"] =
        Json.arr [Json.str "x", Json.str "y"] :=
  ⟨(vec_or_one_collapse encStr).1 "x",
   (vec_or_one_collapse encStr).2.1 "x" rfl,
   (vec_or_one_collapse encStr).2.2 [] (by simp),
   (vec_or_one_collapse encStr).2.2 ["x", "y"] (by simp)⟩

/-- C3: decode shape normalization for `vec_or_one::deserialize`.  A
non-array node whose element decode succeeds yields a sequence of
length exactly 1 holding that element; an array node all of whose
elements decode yields a sequence of the array's length whose i-th
entry is the decode of the array's i-th entry. -/
theorem vec_or_one_deserialize_shape {T : Type}
    (dec : Json → Except String T) :
    (∀ (j : Json) (e : T), j.isArr = false → dec j = Except.ok e →
      vec_or_one.deserialize dec j = Except.ok [e]) ∧
    (∀ (xs : List Json) (v : List T),
      vec_or_one.decodeElems dec xs = Except.ok v →
      vec_or_one.deserialize dec (Json.arr xs) = Except.ok v ∧
        v.length = xs.length ∧
        ∀ (i : Nat) (h1 : i < xs.length) (h2 : i < v.length),
          dec (xs.get ⟨i, h1⟩) = Except.ok (v.get ⟨i, h2⟩)) := by
  constructor
  · intro j e hj hdec
    simp [vec_or_one.deserialize, decodeSeq_not_arr dec j hj, hdec]
  · intro xs v hv
    obtain ⟨hlen, hord⟩ := decodeElems_spec dec xs v hv
    refine ⟨?_, hlen, hord⟩
    simp [vec_or_one.deserialize, vec_or_one.decodeSeq, hv]

/-- C3 witness: the shape-normalization theorem instantiated at the
concrete string codec, on a scalar node and on a 2-element array. -/
theorem vec_or_one_deserialize_shape_witness :
    vec_or_one.deserialize decStr (Json.str "x") = Except.ok ["x"] ∧
      vec_or_one.deserialize decStr
          (Json.arr [Json.str "x", Json.str "y"]) =
        Except.ok ["x", "y"] :=
  ⟨(vec_or_one_deserialize_shape decStr).1 (Json.str "x") "x" rfl rfl,
   ((vec_or_one_deserialize_shape decStr).2 [Json.str "x", Json.str "y"]
     ["x", "y"] rfl).1⟩

/-- C9: the optional encoder's `Some` path is extensionally the
non-optional encoder: for every sequence `v`,
`option_vec_or_one::serialize` on `Some(v)` produces exactly the wire
value `vec_or_one::serialize` produces on `v`. -/
theorem option_vec_or_one_serialize_some {T : Type} (enc : T → Json)
    (v : List T) :
    option_vec_or_one.serialize enc (some v) = vec_or_one.serialize enc v := by
  match v with
  | [] => rfl
  | [x] => rfl
  | a :: b :: t => rfl

/-- The serde derive for the documented `Outer` struct of
`option_vec_or_one` (rustdoc example: `#[serde(default, with =
"serde_stuff::option_vec_or_one")] pub items: Option<Vec<Inner>>`,
with no skip attribute): the field is always emitted, its value
produced by the adapter's `serialize`. -/
def outerItemsSerialize {T : Type} (enc : T → Json)
    (items : Option (List T)) : Json :=
  Json.obj [("items", option_vec_or_one.serialize enc items)]

/-- The serde derive for the test `Outer` struct of
`option_vec_or_one`, which adds `skip_serializing_if =
"Option::is_none"`: a `None` field is skipped before the adapter is
invoked; otherwise the adapter's `serialize` produces the value. -/
def outerItemsSerializeSkipNone {T : Type} (enc : T → Json)
    (items : Option (List T)) : Json :=
  match items with
  | none => Json.obj []
  | some v => Json.obj [("items", option_vec_or_one.serialize enc (some v))]

/-- The serde derive for the documented `Outer` struct of
`option_base64` (rustdoc example: `#[serde(default, with =
"serde_stuff::option_base64")] pub item: Option<Vec<u8>>`, with no
skip attribute): the field is always emitted. -/
def outerItemSerializeB64 (item : Option (List Nat)) : Json :=
  Json.obj [("item", option_base64.serialize item)]

/-- The serde derive for the test `Outer` struct of `option_base64`,
which adds `skip_serializing_if = "Option::is_none"` (and a second
field `other`): a `None` field is skipped before the adapter is
invoked. -/
def outerItemSerializeB64SkipNone (item : Option (List Nat))
    (other : String) : Json :=
  match item with
  | none => Json.obj [("other", Json.str other)]
  | some v =>
    Json.obj [("item", option_base64.serialize (some v)),
      ("other", Json.str other)]

/-- C4 counterexample: with the documented attribute set (no
`skip_serializing_if`), serializing the Absent state through
`option_vec_or_one::serialize` and `option_base64::serialize` does not
omit the field: the parent object keeps the key, bound to an explicit
null (the rendering of `serialize_none`). -/
theorem option_serialize_none_counterexample :
    outerItemsSerialize encStr none = Json.obj [("items", Json.null)] ∧
      hasKey (outerItemsSerialize encStr none) "items" = true ∧
      option_vec_or_one.serialize encStr none = Json.null ∧
      outerItemSerializeB64 none = Json.obj [("item", Json.null)] ∧
      hasKey (outerItemSerializeB64 none) "item" = true ∧
      option_base64.serialize none = Json.null :=
  ⟨rfl, rfl, rfl, rfl, rfl, rfl⟩

/-- C4 amended: `option_vec_or_one::serialize` and
`option_base64::serialize` map the Absent state to the framework's
none signal (a null node in JSON); the field is omitted from the
enclosing structure's output exactly when the structure also declares
`skip_serializing_if = "Option::is_none"`, as the repository's test
structs do, in which case the serialized parent object has no key for
the field. -/
theorem option_serialize_none_skip {T : Type} (enc : T → Json) :
    outerItemsSerializeSkipNone enc none = Json.obj [] ∧
      hasKey (outerItemsSerializeSkipNone enc none) "items" = false ∧
      outerItemSerializeB64SkipNone none "value" =
        Json.obj [("other", Json.str "value")] ∧
      hasKey (outerItemSerializeB64SkipNone none "value") "item" = false :=
  ⟨rfl, rfl, rfl, rfl⟩

/-- An element decoder that rejects every non-string node with one
fixed message, used to exhibit that the untagged-enum error does not
depend on the element's own failure. -/
def decFailA (j : Json) : Except String String :=
  match j with
  | Json.str s => Except.ok s
  | _ => Except.error "element failure A"

/-- Same decoder with a different element failure message. -/
def decFailB (j : Json) : Except String String :=
  match j with
  | Json.str s => Except.ok s
  | _ => Except.error "element failure B"

/-- C5 counterexample: on an array whose sole element fails its own
decode (and which does not decode as a single element either),
`vec_or_one::deserialize` fails with serde's fixed untagged-enum
message; two element decoders whose failures differ produce the
identical error, so the error does not carry the underlying
per-element failure. -/
theorem vec_or_one_error_counterexample :
    decFailA (Json.num 5) = Except.error "element failure A" ∧
      decFailB (Json.num 5) = Except.error "element failure B" ∧
      vec_or_one.deserialize decFailA (Json.arr [Json.num 5]) =
        Except.error "data did not match any variant of untagged enum VecOrOne" ∧
      vec_or_one.deserialize decFailB (Json.arr [Json.num 5]) =
        Except.error "data did not match any variant of untagged enum VecOrOne" :=
  ⟨rfl, rfl, rfl, rfl⟩

/-- C5 amended: whenever a node matches neither the sequence
interpretation (because it is not an array or some contained element
fails its own decode) nor the single-element interpretation,
`vec_or_one::deserialize` fails with a DecodeError; the error is
serde's fixed message naming the untagged enum `VecOrOne` (covering
both attempted interpretations) and does not carry the underlying
per-element failure. -/
theorem vec_or_one_error_generic {T : Type} (dec : Json → Except String T)
    (j : Json) (e1 e2 : String)
    (hseq : vec_or_one.decodeSeq dec j = Except.error e1)
    (hone : dec j = Except.error e2) :
    vec_or_one.deserialize dec j =
      Except.error "data did not match any variant of untagged enum VecOrOne" := by
  simp [vec_or_one.deserialize, hseq, hone]

/-- C5 witness: the generic-error theorem applied to the string codec
on a number node, which matches neither interpretation. -/
theorem vec_or_one_error_generic_witness :
    vec_or_one.deserialize decStr (Json.num 5) =
      Except.error "data did not match any variant of untagged enum VecOrOne" :=
  vec_or_one_error_generic decStr (Json.num 5)
    "invalid type: expected a sequence" "invalid type: expected a string"
    rfl rfl

/-- C6: `option_vec_or_one::deserialize` at field level.  A field
absent from the input is defaulted (per the documented `default`
requirement) to `None` without invoking the decoder; a field holding
an explicit null decodes to `None`; any other present node delegates
to `vec_or_one::deserialize` and wraps its result in `Some`. -/
theorem option_vec_or_one_deserialize_cases {T : Type}
    (dec : Json → Except String T) :
    option_vec_or_one.deserializeField dec none = Except.ok none ∧
      option_vec_or_one.deserializeField dec (some Json.null) =
        Except.ok none ∧
      ∀ j : Json, j ≠ Json.null →
        option_vec_or_one.deserializeField dec (some j) =
          (vec_or_one.deserialize dec j).map some := by
  refine ⟨rfl, rfl, ?_⟩
  intro j hj
  cases j with
  | null => exact absurd rfl hj
  | bool b =>
    show (match vec_or_one.deserialize dec (Json.bool b) with
      | Except.ok v => Except.ok (some v)
      | Except.error e => Except.error e) = _
    cases vec_or_one.deserialize dec (Json.bool b) <;> rfl
  | num n =>
    show (match vec_or_one.deserialize dec (Json.num n) with
      | Except.ok v => Except.ok (some v)
      | Except.error e => Except.error e) = _
    cases vec_or_one.deserialize dec (Json.num n) <;> rfl
  | str s =>
    show (match vec_or_one.deserialize dec (Json.str s) with
      | Except.ok v => Except.ok (some v)
      | Except.error e => Except.error e) = _
    cases vec_or_one.deserialize dec (Json.str s) <;> rfl
  | arr xs =>
    show (match vec_or_one.deserialize dec (Json.arr xs) with
      | Except.ok v => Except.ok (some v)
      | Except.error e => Except.error e) = _
    cases vec_or_one.deserialize dec (Json.arr xs) <;> rfl
  | obj fs =>
    show (match vec_or_one.deserialize dec (Json.obj fs) with
      | Except.ok v => Except.ok (some v)
      | Except.error e => Except.error e) = _
    cases vec_or_one.deserialize dec (Json.obj fs) <;> rfl

/-- C6 witness: the field-level cases applied to the string codec,
including a present non-null node. -/
theorem option_vec_or_one_deserialize_cases_witness :
    option_vec_or_one.deserializeField decStr (some (Json.str "x")) =
      (vec_or_one.deserialize decStr (Json.str "x")).map some :=
  (option_vec_or_one_deserialize_cases decStr).2.2 (Json.str "x")
    (fun h => nomatch h)

/-- C7: the base64 adapter.  Encoding any byte sequence (bytes below
256) to padded URL-safe base64 text and decoding it back yields the
same bytes; encoding the bytes 0 through 31 yields exactly the
repository's test vector and decoding that vector yields the bytes 0
through 31; and decoding fails with a DecodeError on any text with a
character outside the base64 alphabet/padding, on any text whose
length is not a multiple of four, and on misplaced or non-canonical
padding. -/
theorem base64_adapter_contract :
    (∀ bytes : List Nat, (∀ b ∈ bytes, b < 256) →
      base64.deserialize (base64.serialize bytes) = Except.ok bytes) ∧
    base64.serialize (List.range 32) =
      Json.str "AAECAwQFBgcICQoLDA0ODxAREhMUFRYXGBkaGxwdHh8=" ∧
    base64.deserialize
        (Json.str "AAECAwQFBgcICQoLDA0ODxAREhMUFRYXGBkaGxwdHh8=") =
      Except.ok (List.range 32) ∧
    (∀ s : String, (∃ c ∈ s.data, b64.validB64Char c = false) →
      ∃ e, base64.deserialize (Json.str s) = Except.error e) ∧
    (∀ s : String, s.data.length % 4 ≠ 0 →
      ∃ e, base64.deserialize (Json.str s) = Except.error e) ∧
    base64.deserialize (Json.str "=AAA") = Except.error "Invalid byte" ∧
    base64.deserialize (Json.str "AB==") =
      Except.error "Invalid last symbol" := by
  refine ⟨?_, rfl, by rfl, ?_, ?_, rfl, rfl⟩
  · intro bytes h
    simp [base64.serialize, base64.deserialize, b64.encode, b64.decode,
      decodeChunks_encodeChunks bytes h]
  · intro s hc
    obtain ⟨c, hmem, hval⟩ := hc
    cases hd : b64.decode s with
    | ok v =>
      have := (decodeChunks_ok_wf s.data v hd).2 c hmem
      rw [hval] at this
      cases this
    | error e =>
      exact ⟨e, by simp [base64.deserialize, hd]⟩
  · intro s hlen
    cases hd : b64.decode s with
    | ok v => exact absurd (decodeChunks_ok_wf s.data v hd).1 hlen
    | error e =>
      exact ⟨e, by simp [base64.deserialize, hd]⟩

/-- C7 witness: the adapter contract applied concretely: round-trip of
the bytes `[0, 1, 2]` and decode failure on the out-of-alphabet text
`"!!!!"`. -/
theorem base64_adapter_contract_witness :
    base64.deserialize (base64.serialize [0, 1, 2]) = Except.ok [0, 1, 2] ∧
      ∃ e, base64.deserialize (Json.str "!!!!") = Except.error e :=
  ⟨base64_adapter_contract.1 [0, 1, 2] (by decide),
   base64_adapter_contract.2.2.2.1 "!!!!" ⟨'!', by decide, by decide⟩⟩

/-- C8: `string_or_struct::deserialize` routes a text node to the
type's `FromStr` conversion (which, with error type `Void`, always
succeeds), routes a map node to the type's structural decode, and
fails with the visitor's DecodeError on every node that is neither
text nor a map. -/
theorem string_or_struct_deserialize_cases {T : Type}
    (from_str : String → Except Void T)
    (decMap : List (String × Json) → Except String T) :
    (∀ s : String,
      string_or_struct.deserialize from_str decMap (Json.str s) =
        Except.ok (unwrapVoid (from_str s))) ∧
    (∀ m : List (String × Json),
      string_or_struct.deserialize from_str decMap (Json.obj m) = decMap m) ∧
    (∀ j : Json, j.isStr = false → j.isObj = false →
      string_or_struct.deserialize from_str decMap j =
        Except.error "invalid type: expected string or map") := by
  refine ⟨fun s => rfl, fun m => rfl, ?_⟩
  intro j hs ho
  cases j <;> simp_all [Json.isStr, Json.isObj, string_or_struct.deserialize]

/-- The `FromStr` contract of the test `Inner` type: parsing text
always succeeds, storing the text in the `item` field (here the
element value is the string itself). -/
def fromStrInner (s : String) : Except Void String := Except.ok s

/-- The structural decode of the test `Inner` type: a map with an
`item` field holding text. -/
def decMapInner (m : List (String × Json)) : Except String String :=
  match m with
  | [("item", Json.str s)] => Except.ok s
  | _ => Except.error "missing field item"

/-- C8 witness: the adapter's dispatch applied to the test `Inner`
codec: a text node, a map node, and a number node (neither shape). -/
theorem string_or_struct_deserialize_cases_witness :
    string_or_struct.deserialize fromStrInner decMapInner (Json.str "value") =
        Except.ok (unwrapVoid (fromStrInner "value")) ∧
      string_or_struct.deserialize fromStrInner decMapInner
          (Json.obj [("item", Json.str "value")]) =
        decMapInner [("item", Json.str "value")] ∧
      string_or_struct.deserialize fromStrInner decMapInner (Json.num 3) =
        Except.error "invalid type: expected string or map" :=
  ⟨(string_or_struct_deserialize_cases fromStrInner decMapInner).1 "value",
   (string_or_struct_deserialize_cases fromStrInner decMapInner).2.1
     [("item", Json.str "value")],
   (string_or_struct_deserialize_cases fromStrInner decMapInner).2.2
     (Json.num 3) rfl rfl⟩

/-- C10: the text branch of `string_or_struct` can never fail.  Since
the `FromStr` error type is `Void`, which is uninhabited, every
`FromStr` result is `Ok`, `visit_str` returns
`Ok(from_str(value).unwrap())` for every string, and the error path of
the unwrap is unreachable. -/
theorem visit_str_never_fails {T : Type}
    (from_str : String → Except Void T) (s : String) :
    string_or_struct.visit_str from_str s =
        Except.ok (unwrapVoid (from_str s)) ∧
      (∃ t : T, from_str s = Except.ok t) ∧
      ∀ e : Void, from_str s ≠ Except.error e := by
  refine ⟨rfl, ?_, fun e => nomatch e⟩
  cases h : from_str s with
  | ok t => exact ⟨t, rfl⟩
  | error e => exact nomatch e
